import Mathlib

/-!
Shallow embedding of the huawei-solar client library
(`src/huawei_solar/huawei_solar.py` and `src/huawei_solar/bridge.py`), and a
verification of the behavioural claims of its specification against that
embedding.  Machine integers are modelled as `Nat`/`Int` (Python integers are
unbounded, so no wrap-around is introduced anywhere); the asynchronous
transport is modelled by explicit outcome scripts; fallible code returns
`Except`/`Option`.
-/

set_option maxHeartbeats 1000000

namespace HuaweiSolar

/-- Unit annotation of a register definition (`RegisterDefinition.unit`):
either absent, dynamic (a callable or a dict), or a constant string. -/
inductive RegUnit where
  | noUnit
  | dynamic
  | const (u : String)
deriving DecidableEq

/-- The part of a `RegisterDefinition` entry of the register catalog that the
batch planner `get_multiple` inspects: word address (`register`), word length
(`length`), and the unit annotation used by `_decode_response`. -/
structure RegisterDefinition where
  register : Nat
  length : Nat
  unit : RegUnit
deriving DecidableEq

/-- Model of `_decode_response` (huawei_solar.py:249-257): the exposed unit is `None`
unless `reg.unit` is a plain constant (callables and dicts yield `None`). -/
def unitOf (r : RegisterDefinition) : Option String :=
  match r.unit with
  | .const u => some u
  | _ => none

/-- The `ValueError`s that `get_multiple` can raise before touching the
transport (huawei_solar.py:270-297). -/
inductive GmError where
  | emptyNames
  | unknownNames
  | notMonotonic (prevEnd cur : Nat)
  | gapTooLarge
deriving DecidableEq

/-- Model of `registers = list(map(REGISTERS.get, names))` followed by the
`None in registers` check: resolve every name through the catalog, failing if
any is unknown (huawei_solar.py:273-276). -/
def resolveAll (catalog : String → Option RegisterDefinition) :
    List String → Option (List RegisterDefinition)
  | [] => some []
  | n :: ns =>
    match catalog n, resolveAll catalog ns with
    | some r, some rs => some (r :: rs)
    | _, _ => none

/-- The validation loop of `get_multiple` (huawei_solar.py:278-297).  For each
consecutive pair it first checks `prev.register + prev.length > cur.register`
(monotonicity) and then computes
`register_distance = prev.register + prev.length - cur.register` — a Python
`int`, hence modelled as `Int` — raising when `register_distance > 64`. -/
def checkPairs : List RegisterDefinition → Option GmError
  | a :: b :: rest =>
    if a.register + a.length > b.register then
      some (.notMonotonic (a.register + a.length) b.register)
    else if ((a.register : Int) + (a.length : Int) - (b.register : Int)) > 64 then
      some .gapTooLarge
    else checkPairs (b :: rest)
  | _ => none

/-- Model of `BinaryPayloadDecoder.fromRegisters(..., byteorder=Big, wordorder=Big)`:
the decoder's byte stream is each 16-bit response word split high byte
first. -/
def wordsToBytes : List Nat → List Nat
  | [] => []
  | w :: ws => w / 256 :: w % 256 :: wordsToBytes ws

/-- The window of `len` bytes a decoder positioned at byte offset `off`
consumes.  Per-kind register decoding is abstracted as this consumed window:
the planner claims are about addressing and slicing, not about the value
codec. -/
def sliceBytes (bytes : List Nat) (off len : Nat) : List Nat :=
  (bytes.drop off).take len

/-- The decoding loop of `get_multiple` (huawei_solar.py:312-319): for each
register after the first, `skip_registers = cur.register - (prev.register +
prev.length)` and the decoder advances `skip_registers * 2` bytes (a Python
`int`, so the pointer is an `Int`) before decoding `2 * cur.length` bytes. -/
def decodeRest (bytes : List Nat) :
    RegisterDefinition → Int → List RegisterDefinition → List (List Nat × Option String)
  | _, _, [] => []
  | prev, off, r :: rs =>
    let skip : Int := (r.register : Int) - ((prev.register : Int) + (prev.length : Int))
    let off2 : Int := off + skip * 2
    (sliceBytes bytes off2.toNat (2 * r.length), unitOf r) ::
      decodeRest bytes r (off2 + 2 * (r.length : Int)) rs

/-- Everything observable about one `get_multiple` call: the
`read_holding_registers` calls issued as (address, count) pairs, and the
returned `(value, unit)` results in order, values abstracted as the consumed
byte windows. -/
structure GmResult where
  issuedReads : List (Nat × Int)
  results : List (List Nat × Option String)
deriving DecidableEq

/-- Model of `AsyncHuaweiSolar.get_multiple` (huawei_solar.py:263-321): empty-input
check, name resolution, pair validation, one
`read_holding_registers(first.register, last.register + last.length -
first.register)` call, then the skip/decode loop.  `transport` maps
(address, count) to the response words. -/
def get_multiple (catalog : String → Option RegisterDefinition)
    (transport : Nat → Int → List Nat) (names : List String) :
    Except GmError GmResult :=
  if names.length = 0 then .error .emptyNames
  else
    match resolveAll catalog names with
    | none => .error .unknownNames
    | some registers =>
      match checkPairs registers with
      | some e => .error e
      | none =>
        match registers with
        | [] => .error .emptyNames
        | r0 :: rest =>
          let lastReg := rest.getLastD r0
          let totalLen : Int :=
            (lastReg.register : Int) + (lastReg.length : Int) - (r0.register : Int)
          let bytes := wordsToBytes (transport r0.register totalLen)
          .ok { issuedReads := [(r0.register, totalLen)],
                results := (sliceBytes bytes 0 (2 * r0.length), unitOf r0) ::
                  decodeRest bytes r0 (2 * (r0.length : Int)) rest }

/-- Spec-side validity of the resolved descriptor list: every consecutive pair
is monotonically increasing, non-overlapping, with inter-register gap at most
64 words. -/
def validPairsB : List RegisterDefinition → Bool
  | a :: b :: rest =>
    decide (a.register + a.length ≤ b.register) &&
      decide (b.register - (a.register + a.length) ≤ 64) && validPairsB (b :: rest)
  | _ => true

/-- Monotone non-overlapping chain of consecutive descriptors. -/
def monoChain : List RegisterDefinition → Prop
  | a :: b :: rest => a.register + a.length ≤ b.register ∧ monoChain (b :: rest)
  | _ => True

/-- The outcome of one `read_holding_registers` transport call as seen by the
body of `_do_read` (huawei_solar.py:356-390). -/
inductive AttemptOutcome where
  | ok (words : List Nat)
  | timeout
  | slaveBusy
  | excOther (code : Nat)
  | connLost
deriving DecidableEq

/-- The errors `_read_registers` can raise to its caller: `ConnectionException`
when the client is not connected, a terminal `ReadException`, or the
`ReadException` that `backoff_giveup` raises with the attempt count. -/
inductive ReadErr where
  | notConnected
  | readError
  | gaveUp (tries : Nat)
deriving DecidableEq

/-- Observable events of the serialized request controller: transport
attempts (with the effective unit id), backoff sleeps (in seconds), the
cooldown sleep, and the release of the communication lock. -/
inductive Event where
  | readAttempt (address : Nat) (count : Int) (unit : Int)
  | writeAttempt (address : Nat) (unit : Int)
  | backoffSleep (seconds : Nat)
  | cooldownSleep
  | releaseGate
deriving DecidableEq

/-- Python's `slave or self.slave`: both `None` and `0` are falsy, so both
select the session default. -/
def pyOr (slave : Option Int) (selfSlave : Int) : Int :=
  match slave with
  | none => selfSlave
  | some s => if s = 0 then selfSlave else s

/-- Whether the backoff decorator of `_read_registers` retries an outcome:
its exception tuple is exactly `(asyncio.TimeoutError, SlaveBusyException)`. -/
def isRetryable (o : AttemptOutcome) : Bool :=
  match o with
  | .timeout => true
  | .slaveBusy => true
  | _ => false

/-- The backoff-wrapped `_do_read` (huawei_solar.py:338-390):
`backoff.on_exception(backoff.constant, (TimeoutError, SlaveBusyException),
interval=DEFAULT_WAIT=2, max_tries=5)`.  Each iteration checks the
connection (raising `ConnectionException`, which is not in the retry tuple),
performs the transport call — `script k` is the outcome of the (k+1)-th
call — raises `SlaveBusyException` on a SlaveBusy exception response,
`ReadException` on any other exception response or on
`ModbusConnectionException`, sleeps 2 s between attempts and raises
`ReadException` with the attempt count after `max_tries` attempts. -/
def backoffLoop (connected : Bool) (script : Nat → AttemptOutcome)
    (address : Nat) (count : Int) (unit : Int) :
    Nat → Nat → Except ReadErr (List Nat) × List Event
  | 0, triesUsed => (.error (.gaveUp triesUsed), [])
  | triesLeft + 1, triesUsed =>
    if !connected then (.error .notConnected, [])
    else
      let ev := Event.readAttempt address count unit
      match script triesUsed with
      | .ok ws => (.ok ws, [ev])
      | .excOther _ => (.error .readError, [ev])
      | .connLost => (.error .readError, [ev])
      | .timeout =>
        if triesLeft = 0 then (.error (.gaveUp (triesUsed + 1)), [ev])
        else
          let rest := backoffLoop connected script address count unit triesLeft (triesUsed + 1)
          (rest.1, ev :: .backoffSleep 2 :: rest.2)
      | .slaveBusy =>
        if triesLeft = 0 then (.error (.gaveUp (triesUsed + 1)), [ev])
        else
          let rest := backoffLoop connected script address count unit triesLeft (triesUsed + 1)
          (rest.1, ev :: .backoffSleep 2 :: rest.2)

/-- Model of `AsyncHuaweiSolar._read_registers` (huawei_solar.py:323-398): the
backoff-wrapped `_do_read` under the communication lock, with the
`cooldown_time` sleep after a successful result; an exception propagates
past the sleep, the `async with` still releases the lock. -/
def readRegisters (connected : Bool) (script : Nat → AttemptOutcome)
    (address : Nat) (count : Int) (slave : Option Int) (selfSlave : Int) :
    Except ReadErr (List Nat) × List Event :=
  let r := backoffLoop connected script address count (pyOr slave selfSlave) 5 0
  match r.1 with
  | .ok ws => (.ok ws, r.2 ++ [.cooldownSleep, .releaseGate])
  | .error e => (.error e, r.2 ++ [.releaseGate])

/-- The outcome of the single `write_registers` transport call. -/
inductive WriteAttemptOutcome where
  | ok (address count : Nat)
  | excResponse (code : Nat)
  | connLost
  | timeout
deriving DecidableEq

/-- The errors `write_registers` can raise: `ConnectionException` (client not
connected, or `ModbusConnectionException` re-raised), `PermissionDenied` on
exception code 0x80, `WriteException(ModbusExceptions.decode(code))` on any
other exception response — with no attempt count — and an uncaught
`asyncio.TimeoutError`. -/
inductive WriteErr where
  | notConnected
  | permissionDenied
  | writeError (code : Nat)
  | timeoutRaised
deriving DecidableEq

/-- Model of `AsyncHuaweiSolar.write_registers` (huawei_solar.py:524-549): connection
check, then a single transport call — there is no backoff decorator on the
write path — then `PermissionDenied` on code 0x80, `WriteException` on any
other exception response, `ConnectionException` on a dropped connection.
Only `script 0` is ever consulted: the code never retries a write. -/
def writeRegisters (connected : Bool) (script : Nat → WriteAttemptOutcome)
    (register : Nat) (slave : Option Int) (selfSlave : Int) :
    Except WriteErr (Nat × Nat) × List Event :=
  if !connected then (.error .notConnected, [])
  else
    let ev := Event.writeAttempt register (pyOr slave selfSlave)
    match script 0 with
    | .ok a c => (.ok (a, c), [ev])
    | .excResponse code =>
      if code = 0x80 then (.error .permissionDenied, [ev])
      else (.error (.writeError code), [ev])
    | .connLost => (.error .notConnected, [ev])
    | .timeout => (.error .timeoutRaised, [ev])

/-- Model of `AsyncHuaweiSolar.set` (huawei_solar.py:494-522) from the point where the
communication lock is taken: `write_registers`, then the cooldown sleep — an
exception skips the sleep but still releases the lock — and finally
`response.address == reg.register and response.count == reg.length`. -/
def setOp (connected : Bool) (script : Nat → WriteAttemptOutcome)
    (register length : Nat) (slave : Option Int) (selfSlave : Int) :
    Except WriteErr Bool × List Event :=
  let r := writeRegisters connected script register slave selfSlave
  match r.1 with
  | .ok (a, c) =>
    (.ok (a == register && c == length), r.2 ++ [.cooldownSleep, .releaseGate])
  | .error e => (.error e, r.2 ++ [.releaseGate])

/-- Number of transport attempts recorded in an event list. -/
def attemptCount (evs : List Event) : Nat :=
  evs.countP fun e =>
    match e with
    | .readAttempt _ _ _ => true
    | .writeAttempt _ _ => true
    | _ => false

/-- The event trace of `n` retries followed by a final attempt: `n + 1`
transport attempts with a constant 2-second backoff sleep between
consecutive attempts. -/
def retryTrace (address : Nat) (count : Int) (unit : Int) : Nat → List Event
  | 0 => [.readAttempt address count unit]
  | n + 1 => .readAttempt address count unit :: .backoffSleep 2 ::
      retryTrace address count unit n

/-- Character-list test whether the first list begins the second. -/
def charsBeginWith : List Char → List Char → Bool
  | [], _ => true
  | _ :: _, [] => false
  | a :: as, b :: bs => a == b && charsBeginWith as bs

/-- Character-list substring containment. -/
def charsContain (pat : List Char) : List Char → Bool
  | [] => pat.isEmpty
  | s@(_ :: rest) => charsBeginWith pat s || charsContain pat rest

/-- Executable model of Python's `pat in s` substring test, used by
`_initialize` as `"IllegalAddress" in str(rerr)`. -/
def strContains (s pat : String) : Bool := charsContain pat.toList s.toList

/-- Result of the battery-probe step of `_initialize`: the final
`battery_type` field and the exception, if any, escaping the step. -/
structure BatteryProbeResult where
  batteryType : Option Int
  raised : Option String
deriving DecidableEq

/-- The battery-probe `try/except` of `AsyncHuaweiSolar._initialize`
(huawei_solar.py:132-146).  `probe` is the outcome of
`self.get(rn.STORAGE_UNIT_1_PRODUCT_MODEL)`: a decoded value or a
`ReadException` message.  On an error whose text contains "IllegalAddress"
the handler sets `battery_type = None`; in either branch control then
reaches the `raise rerr` statement — it sits outside the `else` — so the
exception is always re-raised. -/
def initBatteryStep (batteryType0 : Option Int) (probe : Except String Int) :
    BatteryProbeResult :=
  match probe with
  | .ok v => ⟨some v, none⟩
  | .error msg =>
    if strContains msg "IllegalAddress" then ⟨none, some msg⟩
    else ⟨batteryType0, some msg⟩

/-- Model of `rv.StorageProductModel`: the battery product model enum whose member
`NONE` means "no battery present". -/
inductive StorageProductModel where
  | NONE
  | HUAWEI_LUNA2000
  | LG_RESU
deriving DecidableEq

/-- The register sets that one `HuaweiSolarBridge.update` call can fetch
(bridge.py:130-151), each by a single `get_multiple` call. -/
inductive RegSet where
  | inverter
  | pv
  | optimizer
  | powerMeter
  | energyStorage
deriving DecidableEq

/-- The bridge state fields consulted by `update`.  The battery fields are
annotated `StorageProductModel` in the source but participate in
`is not None` tests, so they are modelled in the Python object domain as
`Option` values where `none` is Python's `None`. -/
structure BridgeState where
  hasOptimizers : Bool
  powerMeterType : Option Nat
  battery1Type : Option StorageProductModel
  battery2Type : Option StorageProductModel
deriving DecidableEq

/-- Model of `HuaweiSolarBridge.__init__` (bridge.py:40-44): both battery fields start
as the enum member `StorageProductModel.NONE` — not Python `None`. -/
def bridgeInitState : BridgeState :=
  { hasOptimizers := false, powerMeterType := none,
    battery1Type := some .NONE, battery2Type := some .NONE }

/-- The battery part of `__populate_fields` (bridge.py:104-119): each probe
read overwrites its field on success and leaves it unchanged on a
`ReadException`. -/
def populateBatteries (st : BridgeState)
    (read1 read2 : Except Unit StorageProductModel) : BridgeState :=
  let st1 := match read1 with
    | .ok v => { st with battery1Type := some v }
    | .error _ => st
  match read2 with
  | .ok v => { st1 with battery2Type := some v }
  | .error _ => st1

/-- The register-set selection of `HuaweiSolarBridge.update`
(bridge.py:130-151): always the inverter and PV sets, the optimizer set iff
`has_optimizers`, the power-meter set iff `power_meter_type is not None`,
and the energy-storage set iff
`battery_1_type is not None or battery_2_type is not None`. -/
def updateSets (st : BridgeState) : List RegSet :=
  [RegSet.inverter, RegSet.pv]
    ++ (if st.hasOptimizers then [RegSet.optimizer] else [])
    ++ (if st.powerMeterType.isSome then [RegSet.powerMeter] else [])
    ++ (if st.battery1Type.isSome || st.battery2Type.isSome then [RegSet.energyStorage]
        else [])

/-- The response processing of `AsyncHuaweiSolar.login`
(huawei_solar.py:587-607) on a login response payload `content`: byte 1 is
the status; when it is 0, the mac of length `content[2]` echoed from byte 3
is compared against the expected digest and a mismatch is only logged; the
method returns `True` iff the status byte is 0.  Result:
(success, macWarningLogged). -/
def clientLoginResult (expectedMac : List Nat) (content : List Nat) : Bool × Bool :=
  if content.getD 1 255 = 0 then
    (true, decide (((content.drop 3).take (content.getD 2 0)) ≠ expectedMac))
  else (false, false)

/-- Model of `HuaweiSolarBridge.login` (bridge.py:204-208): raise `InvalidCredentials`
when the client login returns `False`, else start the heartbeat.  Returns
the outcome together with the new heartbeat-enabled flag. -/
def bridgeLogin (heartbeatEnabled : Bool) (expectedMac content : List Nat) :
    Except Unit Unit × Bool :=
  if (clientLoginResult expectedMac content).1 then (.ok (), true)
  else (.error (), heartbeatEnabled)

/-- The frame-request loop of `_do_read_file` in `AsyncHuaweiSolar.get_file`
(huawei_solar.py:451-465), fuel-indexed to stay structural: starting at
`next_frame_no = n`, while `next_frame_no * data_frame_length < file_length`
request frame `next_frame_no`, append the response's `frame_data`, and
increment.  `frameData k` is the `frame_data` payload of the response for
frame `k`.  `none` marks fuel exhaustion; with `0 < data_frame_length` the
fuel used by `uploadFrames` provably always suffices, and with
`data_frame_length = 0` and `0 < file_length` the Python loop never
terminates. -/
def uploadLoopFuel (frameData : Nat → List Nat) (dfl fl : Nat) :
    Nat → Nat → Option (List Nat × List Nat)
  | 0, n => if n * dfl < fl then none else some ([], [])
  | fuel + 1, n =>
    if n * dfl < fl then
      match uploadLoopFuel frameData dfl fl fuel (n + 1) with
      | none => none
      | some (frames, data) => some (n :: frames, frameData n ++ data)
    else some ([], [])

/-- The frame numbers requested (in order) and the concatenated `file_data`
assembled by `get_file` before the CRC check. -/
def uploadFrames (frameData : Nat → List Nat) (dfl fl : Nat) :
    Option (List Nat × List Nat) :=
  uploadLoopFuel frameData dfl fl (fl + 1) 0

/-- Concatenation of the frame payloads for `count` frames starting at frame
`n`, in order. -/
def framesData (frameData : Nat → List Nat) : Nat → Nat → List Nat
  | _, 0 => []
  | n, count + 1 => frameData n ++ framesData frameData (n + 1) count

/-- One bit round of the pymodbus `__generate_crc16_table` inner loop on a
(byte, crc) pair: test `(byte ^ crc) & 1`, shift both right, folding in the
polynomial 0xA001 on a set bit. -/
def crcByteRound (p : Nat × Nat) : Nat × Nat :=
  if (p.1 ^^^ p.2) &&& 1 = 1 then (p.1 / 2, (p.2 / 2) ^^^ 0xA001)
  else (p.1 / 2, p.2 / 2)

/-- pymodbus `__generate_crc16_table` entry for byte `b`: eight rounds
starting from `(b, 0)`. -/
def crcTableEntry (b : Nat) : Nat := (crcByteRound^[8] (b, 0)).2

/-- The accumulation loop of pymodbus `computeCRC` before the final byte
swap: `crc = 0xFFFF`, then per byte
`crc = ((crc >> 8) & 0xFF) ^ table[(crc ^ a) & 0xFF]`.  This value is the
plain Modbus CRC-16 (polynomial 0xA001, initial 0xFFFF) of the data. -/
def computeCRCraw (data : List Nat) : Nat :=
  data.foldl
    (fun crc a => ((crc >>> 8) &&& 0xFF) ^^^ crcTableEntry ((crc ^^^ a) &&& 0xFF)) 0xFFFF

/-- The byte swap `((x << 8) & 0xFF00) | ((x >> 8) & 0x00FF)`, performed both
at the end of pymodbus `computeCRC` and on the received file CRC in
`get_file` (huawei_solar.py:475). -/
def swapBytes16 (x : Nat) : Nat := ((x <<< 8) &&& 0xFF00) ||| ((x >>> 8) &&& 0x00FF)

/-- pymodbus `computeCRC`: the Modbus CRC-16 with its two bytes swapped on
return. -/
def computeCRC (data : List Nat) : Nat := swapBytes16 (computeCRCraw data)

/-- pymodbus `checkCRC(data, check)`: `computeCRC(data) == check`. -/
def checkCRC (data : List Nat) (check : Nat) : Bool := computeCRC data == check

/-- The CRC acceptance step of `get_file` (huawei_solar.py:473-481): the
received `file_crc` has its bytes swapped and the result is passed to
`checkCRC`; `true` means accepted, `false` means the CrcMismatch
`ReadException` is raised. -/
def getFileCrcAccept (fileData : List Nat) (fileCrc : Nat) : Bool :=
  checkCRC fileData (swapBytes16 fileCrc)

theorem monoChain_of_validPairsB :
    ∀ regs : List RegisterDefinition, validPairsB regs = true → monoChain regs
  | [], _ => trivial
  | [_], _ => trivial
  | a :: b :: rest, h => by
    simp only [validPairsB, Bool.and_eq_true, decide_eq_true_eq] at h
    exact ⟨h.1.1, monoChain_of_validPairsB (b :: rest) h.2⟩

/-- On a monotone chain the validation loop of the source raises nothing:
in particular the `register_distance > 64` branch is unreachable, because
after the monotonicity check `register_distance ≤ 0`. -/
theorem checkPairs_eq_none_of_monoChain :
    ∀ regs : List RegisterDefinition, monoChain regs → checkPairs regs = none
  | [], _ => rfl
  | [_], _ => rfl
  | a :: b :: rest, h => by
    obtain ⟨hab, htail⟩ := h
    simp only [checkPairs, if_neg (by omega : ¬ a.register + a.length > b.register),
      if_neg (by omega :
        ¬ ((a.register : Int) + (a.length : Int) - (b.register : Int)) > 64)]
    exact checkPairs_eq_none_of_monoChain (b :: rest) htail

/-- The gap branch of the validation loop can never fire, on any input. -/
theorem checkPairs_ne_gapTooLarge :
    ∀ regs : List RegisterDefinition, checkPairs regs ≠ some .gapTooLarge
  | [] => by simp [checkPairs]
  | [_] => by simp [checkPairs]
  | a :: b :: rest => by
    simp only [checkPairs]
    by_cases hmono : a.register + a.length > b.register
    · simp [hmono]
    · have hgap : ¬ ((a.register : Int) + (a.length : Int) - (b.register : Int)) > 64 := by
        omega
      simp only [if_neg hmono, if_neg hgap]
      exact checkPairs_ne_gapTooLarge (b :: rest)

theorem resolveAll_length (catalog : String → Option RegisterDefinition) :
    ∀ (names : List String) (regs : List RegisterDefinition),
      resolveAll catalog names = some regs → regs.length = names.length
  | [], regs, h => by simp only [resolveAll, Option.some.injEq] at h; simp [← h]
  | n :: ns, regs, h => by
    simp only [resolveAll] at h
    cases hc : catalog n with
    | none => rw [hc] at h; exact absurd h (by simp)
    | some r =>
      rw [hc] at h
      cases hr : resolveAll catalog ns with
      | none => rw [hr] at h; exact absurd h (by simp)
      | some rs =>
        rw [hr] at h
        cases h
        simp [resolveAll_length catalog ns rs hr]

/-- The decoder pointer invariant: positioned at byte offset
`2 * (prev.register + prev.length - base)` after decoding `prev`, the
skip/decode loop decodes each later register `r` from byte offset
`2 * (r.register - base)`, i.e. each inter-register gap of `g` words is
skipped by advancing `2 * g` bytes. -/
theorem decodeRest_spec (bytes : List Nat) :
    ∀ (rest : List RegisterDefinition) (prev : RegisterDefinition) (base : Nat) (off : Int),
      monoChain (prev :: rest) → base ≤ prev.register →
      off = 2 * (((prev.register : Int) + (prev.length : Int)) - (base : Int)) →
      decodeRest bytes prev off rest =
        rest.map fun r => (sliceBytes bytes (2 * (r.register - base)) (2 * r.length), unitOf r)
  | [], _, _, _, _, _, _ => rfl
  | r :: rs, prev, base, off, h, hbase, hoff => by
    obtain ⟨hpr, htail⟩ := h
    have hbr : base ≤ r.register := by omega
    simp only [decodeRest, List.map_cons]
    have h1 : (off + ((r.register : Int) - ((prev.register : Int) + (prev.length : Int))) * 2).toNat
        = 2 * (r.register - base) := by omega
    have h2 : off + ((r.register : Int) - ((prev.register : Int) + (prev.length : Int))) * 2
          + 2 * (r.length : Int)
        = 2 * (((r.register : Int) + (r.length : Int)) - (base : Int)) := by omega
    rw [h1, decodeRest_spec bytes rs r base _ htail hbr h2]

/-- C2: for a valid (known, ordered, gap-bounded) names list, `get_multiple`
issues exactly one `read_holding_registers(first.register, last.register +
last.length - first.register)` call, skips each inter-register gap by
advancing `gap * 2` bytes in the decoder (so register `r` is decoded from
byte offset `2 * (r.register - first.register)`), and returns the
`(value, unit)` results in input order. -/
theorem get_multiple_single_fused_read (catalog : String → Option RegisterDefinition)
    (transport : Nat → Int → List Nat) (names : List String)
    (r0 : RegisterDefinition) (rest : List RegisterDefinition)
    (hres : resolveAll catalog names = some (r0 :: rest))
    (hvalid : validPairsB (r0 :: rest) = true) :
    get_multiple catalog transport names =
      .ok { issuedReads := [(r0.register,
              ((rest.getLastD r0).register : Int) + ((rest.getLastD r0).length : Int)
                - (r0.register : Int))],
            results :=
              (sliceBytes (wordsToBytes (transport r0.register
                  (((rest.getLastD r0).register : Int) + ((rest.getLastD r0).length : Int)
                    - (r0.register : Int)))) 0 (2 * r0.length), unitOf r0) ::
                rest.map fun r =>
                  (sliceBytes (wordsToBytes (transport r0.register
                      (((rest.getLastD r0).register : Int) + ((rest.getLastD r0).length : Int)
                        - (r0.register : Int))))
                    (2 * (r.register - r0.register)) (2 * r.length), unitOf r) } := by
  have hlen := resolveAll_length catalog names _ hres
  have hmono := monoChain_of_validPairsB _ hvalid
  have hnil : ¬ names.length = 0 := by
    simp only [List.length_cons] at hlen; omega
  simp only [get_multiple, if_neg hnil, hres, checkPairs_eq_none_of_monoChain _ hmono]
  rw [decodeRest_spec _ rest r0 r0.register _ hmono le_rfl (by omega)]

/-- C2 witness: the S2-style scenario — voltage register at (32069, 1),
current register at (32072, 2), one fused read at (32069, 5 = 32072 + 2 -
32069), the 2-word gap skipped as 4 bytes. -/
theorem get_multiple_single_fused_read_witness :
    get_multiple
        (fun n => if n = "PHASE_A_VOLTAGE" then some ⟨32069, 1, .const "V"⟩
                  else if n = "PHASE_A_CURRENT" then some ⟨32072, 2, .const "A"⟩ else none)
        (fun _ _ => [0x08FC, 0, 0, 0, 0x2710])
        ["PHASE_A_VOLTAGE", "PHASE_A_CURRENT"] =
      .ok { issuedReads := [(32069, 5)],
            results := [([0x08, 0xFC], some "V"), ([0x00, 0x00, 0x27, 0x10], some "A")] } := by
  exact get_multiple_single_fused_read
    (fun n => if n = "PHASE_A_VOLTAGE" then some ⟨32069, 1, .const "V"⟩
              else if n = "PHASE_A_CURRENT" then some ⟨32072, 2, .const "A"⟩ else none)
    (fun _ _ => [0x08FC, 0, 0, 0, 0x2710])
    ["PHASE_A_VOLTAGE", "PHASE_A_CURRENT"]
    ⟨32069, 1, .const "V"⟩ [⟨32072, 2, .const "A"⟩] (by rfl) (by rfl) |>.trans (by rfl)

/-- C1 (code bug): two registers at addresses 100 (length 2) and 200
(length 1) have an inter-register gap of 98 > 64 words, yet `get_multiple`
does not raise: the source computes `register_distance = prev.register +
prev.length - cur.register` (which is never positive once the monotonicity
check passed, see `checkPairs_ne_gapTooLarge`), so the 64-word cap is dead
code and the transport read is issued. -/
theorem get_multiple_gap_cap_not_enforced :
    200 - (100 + 2) > 64 ∧
    get_multiple
        (fun n => if n = "A" then some ⟨100, 2, .noUnit⟩
                  else if n = "B" then some ⟨200, 1, .noUnit⟩ else none)
        (fun _ _ => List.replicate 101 0) ["A", "B"] =
      .ok { issuedReads := [(100, 101)],
            results := [([0, 0, 0, 0], none), ([0, 0], none)] } :=
  ⟨by omega, by rfl⟩

theorem backoffLoop_step_retry (script : Nat → AttemptOutcome)
    (address : Nat) (count : Int) (unit : Int) (triesLeft triesUsed : Nat)
    (h : isRetryable (script triesUsed) = true) (htl : triesLeft ≠ 0) :
    backoffLoop true script address count unit (triesLeft + 1) triesUsed =
      ((backoffLoop true script address count unit triesLeft (triesUsed + 1)).1,
        .readAttempt address count unit :: .backoffSleep 2 ::
          (backoffLoop true script address count unit triesLeft (triesUsed + 1)).2) := by
  cases hs : script triesUsed with
  | timeout => simp [backoffLoop, hs, htl]
  | slaveBusy => simp [backoffLoop, hs, htl]
  | ok ws' => rw [hs] at h; simp [isRetryable] at h
  | excOther c => rw [hs] at h; simp [isRetryable] at h
  | connLost => rw [hs] at h; simp [isRetryable] at h

theorem backoffLoop_step_last (script : Nat → AttemptOutcome)
    (address : Nat) (count : Int) (unit : Int) (triesUsed : Nat)
    (h : isRetryable (script triesUsed) = true) :
    backoffLoop true script address count unit 1 triesUsed =
      (.error (.gaveUp (triesUsed + 1)), [.readAttempt address count unit]) := by
  cases hs : script triesUsed with
  | timeout => simp [backoffLoop, hs]
  | slaveBusy => simp [backoffLoop, hs]
  | ok ws' => rw [hs] at h; simp [isRetryable] at h
  | excOther c => rw [hs] at h; simp [isRetryable] at h
  | connLost => rw [hs] at h; simp [isRetryable] at h

theorem backoffLoop_success (script : Nat → AttemptOutcome)
    (address : Nat) (count : Int) (unit : Int) :
    ∀ (n triesLeft triesUsed : Nat) (ws : List Nat), n < triesLeft →
      (∀ k, k < n → isRetryable (script (triesUsed + k)) = true) →
      script (triesUsed + n) = .ok ws →
      backoffLoop true script address count unit triesLeft triesUsed =
        (.ok ws, retryTrace address count unit n)
  | 0, triesLeft + 1, triesUsed, ws, _, _, hok => by
    rw [Nat.add_zero] at hok
    simp [backoffLoop, hok, retryTrace]
  | n + 1, triesLeft + 1, triesUsed, ws, hn, hpre, hok => by
    have h0 : isRetryable (script (triesUsed + 0)) = true := hpre 0 (by omega)
    rw [Nat.add_zero] at h0
    have hrec := backoffLoop_success script address count unit n triesLeft (triesUsed + 1) ws
      (by omega)
      (fun k hk => by
        have := hpre (k + 1) (by omega)
        rwa [show triesUsed + (k + 1) = triesUsed + 1 + k by omega] at this)
      (by rwa [show triesUsed + 1 + n = triesUsed + (n + 1) by omega])
    rw [backoffLoop_step_retry script address count unit triesLeft triesUsed h0 (by omega), hrec]
    simp [retryTrace]

theorem backoffLoop_giveup (script : Nat → AttemptOutcome)
    (address : Nat) (count : Int) (unit : Int) :
    ∀ (triesLeft triesUsed : Nat), 1 ≤ triesLeft →
      (∀ k, k < triesLeft → isRetryable (script (triesUsed + k)) = true) →
      backoffLoop true script address count unit triesLeft triesUsed =
        (.error (.gaveUp (triesUsed + triesLeft)), retryTrace address count unit (triesLeft - 1))
  | 1, triesUsed, _, hall => by
    have h0 : isRetryable (script (triesUsed + 0)) = true := hall 0 (by omega)
    rw [Nat.add_zero] at h0
    rw [backoffLoop_step_last script address count unit triesUsed h0]
    simp [retryTrace]
  | triesLeft + 2, triesUsed, _, hall => by
    have h0 : isRetryable (script (triesUsed + 0)) = true := hall 0 (by omega)
    rw [Nat.add_zero] at h0
    have hrec := backoffLoop_giveup script address count unit (triesLeft + 1) (triesUsed + 1)
      (by omega)
      (fun k hk => by
        have := hall (k + 1) (by omega)
        rwa [show triesUsed + (k + 1) = triesUsed + 1 + k by omega] at this)
    have harith : triesUsed + 1 + (triesLeft + 1) = triesUsed + (triesLeft + 2) := by omega
    rw [harith] at hrec
    rw [backoffLoop_step_retry script address count unit (triesLeft + 1) triesUsed h0
      (by omega), hrec]
    simp [retryTrace]

theorem backoffLoop_attempts_le (script : Nat → AttemptOutcome)
    (address : Nat) (count : Int) (unit : Int) :
    ∀ (connected : Bool) (triesLeft triesUsed : Nat),
      attemptCount (backoffLoop connected script address count unit triesLeft triesUsed).2
        ≤ triesLeft
  | _, 0, triesUsed => by simp [backoffLoop, attemptCount]
  | false, triesLeft + 1, triesUsed => by simp [backoffLoop, attemptCount]
  | true, triesLeft + 1, triesUsed => by
    cases hs : script triesUsed with
    | ok ws' => simp [backoffLoop, hs, attemptCount]
    | excOther c => simp [backoffLoop, hs, attemptCount]
    | connLost => simp [backoffLoop, hs, attemptCount]
    | timeout =>
      by_cases htl : triesLeft = 0
      · simp [backoffLoop, hs, htl, attemptCount]
      · have ih := backoffLoop_attempts_le script address count unit true
          triesLeft (triesUsed + 1)
        rw [backoffLoop_step_retry script address count unit triesLeft triesUsed
          (by rw [hs]; rfl) htl]
        simp [attemptCount, List.countP_cons] at ih ⊢
        omega
    | slaveBusy =>
      by_cases htl : triesLeft = 0
      · simp [backoffLoop, hs, htl, attemptCount]
      · have ih := backoffLoop_attempts_le script address count unit true
          triesLeft (triesUsed + 1)
        rw [backoffLoop_step_retry script address count unit triesLeft triesUsed
          (by rw [hs]; rfl) htl]
        simp [attemptCount, List.countP_cons] at ih ⊢
        omega

theorem backoffLoop_no_cooldown (script : Nat → AttemptOutcome)
    (address : Nat) (count : Int) (unit : Int) :
    ∀ (connected : Bool) (triesLeft triesUsed : Nat),
      Event.cooldownSleep ∉
        (backoffLoop connected script address count unit triesLeft triesUsed).2
  | _, 0, triesUsed => by simp [backoffLoop]
  | false, triesLeft + 1, triesUsed => by simp [backoffLoop]
  | true, triesLeft + 1, triesUsed => by
    cases hs : script triesUsed with
    | ok ws' => simp [backoffLoop, hs]
    | excOther c => simp [backoffLoop, hs]
    | connLost => simp [backoffLoop, hs]
    | timeout =>
      by_cases htl : triesLeft = 0
      · simp [backoffLoop, hs, htl]
      · have ih := backoffLoop_no_cooldown script address count unit true
          triesLeft (triesUsed + 1)
        rw [backoffLoop_step_retry script address count unit triesLeft triesUsed
          (by rw [hs]; rfl) htl]
        simp [ih]
    | slaveBusy =>
      by_cases htl : triesLeft = 0
      · simp [backoffLoop, hs, htl]
      · have ih := backoffLoop_no_cooldown script address count unit true
          triesLeft (triesUsed + 1)
        rw [backoffLoop_step_retry script address count unit triesLeft triesUsed
          (by rw [hs]; rfl) htl]
        simp [ih]

theorem backoffLoop_first_not_retryable (script : Nat → AttemptOutcome)
    (address : Nat) (count : Int) (unit : Int) (triesLeft : Nat)
    (hterm : isRetryable (script 0) = false) :
    (backoffLoop true script address count unit (triesLeft + 1) 0).2 =
      [.readAttempt address count unit] := by
  cases hs : script 0 with
  | ok ws' => simp [backoffLoop, hs]
  | excOther c => simp [backoffLoop, hs]
  | connLost => simp [backoffLoop, hs]
  | timeout => rw [hs] at hterm; simp [isRetryable] at hterm
  | slaveBusy => rw [hs] at hterm; simp [isRetryable] at hterm

theorem writeRegisters_no_cooldown (connected : Bool) (wScript : Nat → WriteAttemptOutcome)
    (register : Nat) (slave : Option Int) (selfSlave : Int) :
    Event.cooldownSleep ∉ (writeRegisters connected wScript register slave selfSlave).2 := by
  cases connected with
  | false => simp [writeRegisters]
  | true =>
    cases h0 : wScript 0 with
    | ok a c => simp [writeRegisters, h0]
    | excResponse code => by_cases hc : code = 0x80 <;> simp [writeRegisters, h0, hc]
    | connLost => simp [writeRegisters, h0]
    | timeout => simp [writeRegisters, h0]

/-- C3 (amended): the retry policy — retry only on Timeout and SlaveBusy,
constant 2-second delay, at most 5 attempts, no attempt after a success,
`ReadException` with the attempt count on exhaustion — applies to the read
path only.  `write_registers` performs exactly one transport attempt and
never retries. -/
theorem read_retry_write_single_attempt
    (sSucc sAll sTerm : Nat → AttemptOutcome) (wScript : Nat → WriteAttemptOutcome)
    (address register : Nat) (count : Int) (slave : Option Int) (selfSlave : Int)
    (n : Nat) (ws : List Nat)
    (hn : n < 5)
    (hpre : ∀ k, k < n → isRetryable (sSucc k) = true)
    (hok : sSucc n = .ok ws)
    (hall : ∀ k, k < 5 → isRetryable (sAll k) = true)
    (hterm : isRetryable (sTerm 0) = false) :
    readRegisters true sSucc address count slave selfSlave =
        (.ok ws, retryTrace address count (pyOr slave selfSlave) n ++
          [.cooldownSleep, .releaseGate])
    ∧ readRegisters true sAll address count slave selfSlave =
        (.error (.gaveUp 5), retryTrace address count (pyOr slave selfSlave) 4 ++
          [.releaseGate])
    ∧ attemptCount (readRegisters true sTerm address count slave selfSlave).2 = 1
    ∧ (∀ s : Nat → AttemptOutcome,
        attemptCount (readRegisters true s address count slave selfSlave).2 ≤ 5)
    ∧ attemptCount (writeRegisters true wScript register slave selfSlave).2 = 1 := by
  refine ⟨?_, ?_, ?_, ?_, ?_⟩
  · have h := backoffLoop_success sSucc address count (pyOr slave selfSlave) n 5 0 ws hn
      (fun k hk => by simpa using hpre k hk) (by simpa using hok)
    simp [readRegisters, h]
  · have h := backoffLoop_giveup sAll address count (pyOr slave selfSlave) 5 0 (by omega)
      (fun k hk => by simpa using hall k hk)
    simp only [Nat.zero_add] at h
    simp [readRegisters, h]
  · have hev := backoffLoop_first_not_retryable sTerm address count (pyOr slave selfSlave)
      4 hterm
    cases hres : (backoffLoop true sTerm address count (pyOr slave selfSlave) 5 0).1 with
    | ok ws' => simp [readRegisters, hres, hev, attemptCount]
    | error e => simp [readRegisters, hres, hev, attemptCount]
  · intro s
    have hb := backoffLoop_attempts_le s address count (pyOr slave selfSlave) true 5 0
    cases hres : (backoffLoop true s address count (pyOr slave selfSlave) 5 0).1 with
    | ok ws' =>
      simp [readRegisters, hres, attemptCount, List.countP_append] at hb ⊢
      omega
    | error e =>
      simp [readRegisters, hres, attemptCount, List.countP_append] at hb ⊢
      omega
  · cases h0 : wScript 0 with
    | ok a c => simp [writeRegisters, h0, attemptCount]
    | excResponse code =>
      by_cases hc : code = 0x80 <;> simp [writeRegisters, h0, hc, attemptCount]
    | connLost => simp [writeRegisters, h0, attemptCount]
    | timeout => simp [writeRegisters, h0, attemptCount]

/-- C3 witness: the S6 scenario — SlaveBusy, SlaveBusy, then a valid
response: three attempts with two 2-second sleeps and one final cooldown;
an all-timeout script exhausts 5 attempts; a terminal first outcome and any
write use exactly one attempt. -/
theorem read_retry_write_single_attempt_witness :
    readRegisters true (fun k => if k < 2 then .slaveBusy else .ok [0x1388]) 32080 2 none 0 =
        (.ok [0x1388], retryTrace 32080 2 (pyOr none 0) 2 ++ [.cooldownSleep, .releaseGate])
    ∧ readRegisters true (fun _ => .timeout) 32080 2 none 0 =
        (.error (.gaveUp 5), retryTrace 32080 2 (pyOr none 0) 4 ++ [.releaseGate])
    ∧ attemptCount (readRegisters true (fun _ => .excOther 2) 32080 2 none 0).2 = 1
    ∧ (∀ s : Nat → AttemptOutcome,
        attemptCount (readRegisters true s 32080 2 none 0).2 ≤ 5)
    ∧ attemptCount (writeRegisters true (fun _ => .ok 40000 1) 40000 none 0).2 = 1 :=
  read_retry_write_single_attempt
    (fun k => if k < 2 then .slaveBusy else .ok [0x1388])
    (fun _ => .timeout) (fun _ => .excOther 2) (fun _ => .ok 40000 1)
    32080 40000 2 none 0 2 [0x1388]
    (by decide) (by decide) (by decide) (by decide) (by decide)

/-- C3 counterexample: a write whose first transport outcome is a SlaveBusy
exception response (code 0x06) is not retried — exactly one transport
attempt is made and `WriteException` is raised immediately, although the
scripted second outcome would have succeeded.  This refutes the claim that
the retry policy covers write operations. -/
theorem write_slaveBusy_not_retried :
    writeRegisters true
        (fun k => if k = 0 then .excResponse 0x06 else .ok 47086 1) 47086 none 0 =
      (.error (.writeError 0x06), [.writeAttempt 47086 0])
    ∧ attemptCount (writeRegisters true
        (fun k => if k = 0 then .excResponse 0x06 else .ok 47086 1) 47086 none 0).2 = 1 :=
  ⟨rfl, rfl⟩

/-- C4 counterexample: a read whose transport attempt returns an
IllegalAddress exception response ends in a final `ReadException`, and the
controller releases the gate without any cooldown sleep — refuting the claim
that every exchange, success or final error, sleeps `cooldown_time` before
releasing the gate. -/
theorem cooldown_skipped_on_error :
    (readRegisters true (fun _ => .excOther 2) 47954 1 none 0).1 = .error .readError
    ∧ Event.cooldownSleep ∉ (readRegisters true (fun _ => .excOther 2) 47954 1 none 0).2
    ∧ (readRegisters true (fun _ => .excOther 2) 47954 1 none 0).2 =
        [.readAttempt 47954 1 0, .releaseGate] :=
  ⟨rfl, by decide, rfl⟩

/-- C4 (amended): the controller sleeps `cooldown_time` after the response
and before releasing the gate exactly when the exchange ends in success;
when the final result is an error propagated to the caller the gate is
released without a cooldown sleep.  This holds for both the read path and
the `set` write path. -/
theorem cooldown_exactly_on_success
    (connected : Bool) (script : Nat → AttemptOutcome) (wScript : Nat → WriteAttemptOutcome)
    (address register lengthW : Nat) (count : Int) (slave : Option Int) (selfSlave : Int) :
    ((∀ ws, (readRegisters connected script address count slave selfSlave).1 = .ok ws →
        ∃ evs, (readRegisters connected script address count slave selfSlave).2 =
            evs ++ [.cooldownSleep, .releaseGate] ∧ Event.cooldownSleep ∉ evs)
      ∧ (∀ e, (readRegisters connected script address count slave selfSlave).1 = .error e →
          Event.cooldownSleep ∉ (readRegisters connected script address count slave selfSlave).2
          ∧ ∃ evs, (readRegisters connected script address count slave selfSlave).2 =
              evs ++ [.releaseGate]))
    ∧ ((∀ b, (setOp connected wScript register lengthW slave selfSlave).1 = .ok b →
        ∃ evs, (setOp connected wScript register lengthW slave selfSlave).2 =
            evs ++ [.cooldownSleep, .releaseGate] ∧ Event.cooldownSleep ∉ evs)
      ∧ (∀ e, (setOp connected wScript register lengthW slave selfSlave).1 = .error e →
          Event.cooldownSleep ∉ (setOp connected wScript register lengthW slave selfSlave).2
          ∧ ∃ evs, (setOp connected wScript register lengthW slave selfSlave).2 =
              evs ++ [.releaseGate])) := by
  have hno := backoffLoop_no_cooldown script address count (pyOr slave selfSlave)
    connected 5 0
  have hwno := writeRegisters_no_cooldown connected wScript register slave selfSlave
  constructor
  · cases hres : (backoffLoop connected script address count (pyOr slave selfSlave) 5 0).1 with
    | ok ws0 =>
      constructor
      · intro ws h
        refine ⟨(backoffLoop connected script address count (pyOr slave selfSlave) 5 0).2,
          ?_, hno⟩
        simp [readRegisters, hres]
      · intro e h
        simp [readRegisters, hres] at h
    | error e0 =>
      constructor
      · intro ws h
        simp [readRegisters, hres] at h
      · intro e h
        refine ⟨?_, (backoffLoop connected script address count (pyOr slave selfSlave) 5 0).2,
          ?_⟩
        · simp [readRegisters, hres, hno]
        · simp [readRegisters, hres]
  · cases hres : (writeRegisters connected wScript register slave selfSlave).1 with
    | ok p =>
      constructor
      · intro b h
        refine ⟨(writeRegisters connected wScript register slave selfSlave).2, ?_, hwno⟩
        obtain ⟨a, c⟩ := p
        simp [setOp, hres]
      · intro e h
        obtain ⟨a, c⟩ := p
        simp [setOp, hres] at h
    | error e0 =>
      constructor
      · intro b h
        simp [setOp, hres] at h
      · intro e h
        refine ⟨?_, (writeRegisters connected wScript register slave selfSlave).2, ?_⟩
        · simp [setOp, hres, hwno]
        · simp [setOp, hres]

/-- C4 witness: a successful read sleeps the cooldown before the gate
release. -/
theorem cooldown_exactly_on_success_witness :
    ∃ evs, (readRegisters true (fun _ => .ok [1]) 40000 1 none 0).2 =
        evs ++ [.cooldownSleep, .releaseGate] ∧ Event.cooldownSleep ∉ evs :=
  (cooldown_exactly_on_success true (fun _ => .ok [1]) (fun _ => .ok 40000 1)
    40000 40000 1 1 none 0).1.1 [1] rfl

/-- C10: passing `slave = 0` explicitly is indistinguishable from passing no
slave at all — `slave or self.slave` treats 0 as falsy/absent, so the
request is addressed to the session default slave id, not to slave 0. -/
theorem slave_zero_selects_default
    (connected : Bool) (script : Nat → AttemptOutcome) (wScript : Nat → WriteAttemptOutcome)
    (address register : Nat) (count : Int) (selfSlave : Int) :
    readRegisters connected script address count (some 0) selfSlave =
        readRegisters connected script address count none selfSlave
    ∧ writeRegisters connected wScript register (some 0) selfSlave =
        writeRegisters connected wScript register none selfSlave
    ∧ pyOr (some 0) selfSlave = selfSlave := by
  refine ⟨?_, ?_, rfl⟩ <;> simp [readRegisters, writeRegisters, pyOr]

/-- C5 (code bug): when the battery probe fails with an IllegalAddress error
the handler does set `battery_type = None`, but `_initialize` then re-raises
the exception — `raise rerr` is reached unconditionally — so initialization
aborts instead of continuing; indeed every probe error escapes the step. -/
theorem battery_probe_illegal_address_reraises :
    strContains "Exception Response(131, 3, IllegalAddress)" "IllegalAddress" = true
    ∧ initBatteryStep none (.error "Exception Response(131, 3, IllegalAddress)") =
        ⟨none, some "Exception Response(131, 3, IllegalAddress)"⟩
    ∧ ∀ (bt0 : Option Int) (msg : String),
        (initBatteryStep bt0 (.error msg)).raised = some msg := by
  refine ⟨by decide, by decide, ?_⟩
  intro bt0 msg
  by_cases h : strContains msg "IllegalAddress" = true <;> simp [initBatteryStep, h]

/-- C9 (code bug): for an inverter with no batteries — both probe reads fail,
leaving the `__init__` value `StorageProductModel.NONE` in place — `update`
still fetches the energy-storage register set, because the battery fields
hold the enum member `NONE`, which `is not None`; indeed the selection
condition is satisfied after any probe outcome whatsoever. -/
theorem update_fetches_storage_without_battery :
    (populateBatteries bridgeInitState (.error ()) (.error ())).battery1Type =
        some StorageProductModel.NONE
    ∧ (populateBatteries bridgeInitState (.error ()) (.error ())).battery2Type =
        some StorageProductModel.NONE
    ∧ RegSet.energyStorage ∈
        updateSets (populateBatteries bridgeInitState (.error ()) (.error ()))
    ∧ ∀ (r1 r2 : Except Unit StorageProductModel),
        RegSet.energyStorage ∈ updateSets (populateBatteries bridgeInitState r1 r2) := by
  refine ⟨rfl, rfl, by decide, ?_⟩
  intro r1 r2
  cases r1 <;> cases r2 <;> simp [populateBatteries, bridgeInitState, updateSets]

/-- C7: when the login response status byte is zero, login succeeds — and the
bridge starts the heartbeat — even if the echoed mac differs from the
expected digest, the mismatch only setting the logged-warning flag; when the
status byte is non-zero, the client returns `False`, the bridge raises
`InvalidCredentials`, and the heartbeat state is unchanged. -/
theorem login_status_decides
    (expectedMac content : List Nat) (hb : Bool) (status : Nat)
    (hstatus : content.getD 1 255 = status) :
    (status = 0 →
      (clientLoginResult expectedMac content).1 = true
      ∧ bridgeLogin hb expectedMac content = (.ok (), true)
      ∧ (clientLoginResult expectedMac content).2 =
          decide (((content.drop 3).take (content.getD 2 0)) ≠ expectedMac))
    ∧ (status ≠ 0 →
      (clientLoginResult expectedMac content).1 = false
      ∧ bridgeLogin hb expectedMac content = (.error (), hb)) := by
  subst hstatus
  constructor
  · intro h0
    have hcl : clientLoginResult expectedMac content =
        (true, decide (((content.drop 3).take (content.getD 2 0)) ≠ expectedMac)) := by
      unfold clientLoginResult
      rw [if_pos h0]
    exact ⟨by rw [hcl], by unfold bridgeLogin; rw [hcl]; rfl, by rw [hcl]⟩
  · intro hne
    have hcl : clientLoginResult expectedMac content = (false, false) := by
      unfold clientLoginResult
      rw [if_neg hne]
    exact ⟨by rw [hcl], by unfold bridgeLogin; rw [hcl]; rfl⟩

/-- C7 witness: with status byte 0, a mac that does not match the expected
digest still yields a successful login (warning flagged); with status byte
5, `InvalidCredentials` with heartbeat state untouched. -/
theorem login_status_decides_witness :
    (clientLoginResult [1, 2] [0x25, 0, 2, 9, 9]).1 = true
    ∧ bridgeLogin false [1, 2] [0x25, 0, 2, 9, 9] = (.ok (), true)
    ∧ (clientLoginResult [1, 2] [0x25, 0, 2, 9, 9]).2 = true
    ∧ (clientLoginResult [1, 2] [0x25, 5, 2, 9, 9]).1 = false
    ∧ bridgeLogin true [1, 2] [0x25, 5, 2, 9, 9] = (.error (), true) := by
  have h1 := (login_status_decides [1, 2] [0x25, 0, 2, 9, 9] false 0 rfl).1 rfl
  have h2 := (login_status_decides [1, 2] [0x25, 5, 2, 9, 9] true 5 rfl).2 (by decide)
  exact ⟨h1.1, h1.2.1, by rw [h1.2.2]; decide, h2.1, h2.2⟩

theorem uploadLoopFuel_spec (frameData : Nat → List Nat) (dfl fl m : Nat)
    (hm1 : fl ≤ m * dfl) (hm2 : ∀ k, k < m → k * dfl < fl) :
    ∀ (fuel n : Nat), m ≤ n + fuel →
      uploadLoopFuel frameData dfl fl fuel n =
        some (List.range' n (m - n), framesData frameData n (m - n))
  | 0, n, hfuel => by
    have hmn : m ≤ n := by omega
    have hcond : ¬ n * dfl < fl := by
      have : m * dfl ≤ n * dfl := Nat.mul_le_mul_right dfl hmn
      omega
    simp [uploadLoopFuel, hcond, Nat.sub_eq_zero_of_le hmn, framesData]
  | fuel + 1, n, hfuel => by
    by_cases hcond : n * dfl < fl
    · have hnm : n < m := by
        by_contra hge
        have : m * dfl ≤ n * dfl := Nat.mul_le_mul_right dfl (by omega)
        omega
      have hrec := uploadLoopFuel_spec frameData dfl fl m hm1 hm2 fuel (n + 1) (by omega)
      have hsub : m - n = (m - (n + 1)) + 1 := by omega
      simp only [uploadLoopFuel, if_pos hcond, hrec]
      rw [hsub, List.range'_succ, framesData]
    · have hmn : m ≤ n := by
        by_contra hlt
        exact hcond (hm2 n (by omega))
      simp [uploadLoopFuel, hcond, Nat.sub_eq_zero_of_le hmn, framesData]

theorem framesData_length (frameData : Nat → List Nat) (dfl fl m : Nat)
    (hm1 : fl ≤ m * dfl)
    (hsize : ∀ k, k < m → (frameData k).length = min dfl (fl - k * dfl)) :
    ∀ (count n : Nat), count = m - n →
      (framesData frameData n count).length = fl - n * dfl
  | 0, n, hc => by
    have hmn : m ≤ n := by omega
    have : m * dfl ≤ n * dfl := Nat.mul_le_mul_right dfl hmn
    simp [framesData]
    omega
  | count + 1, n, hc => by
    have hnm : n < m := by omega
    have hrec := framesData_length frameData dfl fl m hm1 hsize count (n + 1) (by omega)
    have hlen := hsize n hnm
    have he : (n + 1) * dfl = n * dfl + dfl := by ring
    simp only [framesData, List.length_append, hrec, hlen]
    omega

/-- C8: with a positive `data_frame_length`, the frame loop of `get_file`
requests frames `0, 1, …` in increasing order — exactly
`ceil(file_length / data_frame_length)` of them, the least `m` with
`m * data_frame_length ≥ file_length` — appending each response's
`frame_data` in order; and when frame `k` carries
`min(data_frame_length, file_length − k * data_frame_length)` bytes, as in
the upload protocol, the assembled payload stops at exactly
`file_length` bytes. -/
theorem get_file_frame_loop (frameData : Nat → List Nat) (dfl fl m : Nat)
    (hdfl : 0 < dfl)
    (hm1 : fl ≤ m * dfl) (hm2 : ∀ k, k < m → k * dfl < fl)
    (hsize : ∀ k, k < m → (frameData k).length = min dfl (fl - k * dfl)) :
    uploadFrames frameData dfl fl = some (List.range' 0 m, framesData frameData 0 m)
    ∧ m = (fl + dfl - 1) / dfl
    ∧ (framesData frameData 0 m).length = fl := by
  have hmfl : m ≤ fl + 1 := by
    rcases Nat.eq_zero_or_pos m with hz | hpos
    · omega
    · have h1 := hm2 (m - 1) (by omega)
      have h2 : m - 1 ≤ (m - 1) * dfl := Nat.le_mul_of_pos_right _ hdfl
      omega
  refine ⟨?_, ?_, ?_⟩
  · have h := uploadLoopFuel_spec frameData dfl fl m hm1 hm2 (fl + 1) 0 (by omega)
    simpa [uploadFrames] using h
  · apply Nat.le_antisymm
    · rcases Nat.eq_zero_or_pos m with hz | hpos
      · rw [hz]; exact Nat.zero_le _
      · obtain ⟨mp, rfl⟩ : ∃ mp, m = mp + 1 := ⟨m - 1, by omega⟩
        have h1 := hm2 mp (by omega)
        have he : (mp + 1) * dfl = mp * dfl + dfl := by ring
        rw [Nat.le_div_iff_mul_le hdfl]
        omega
    · rw [Nat.div_le_iff_le_mul_add_pred hdfl, Nat.mul_comm]
      omega
  · have h := framesData_length frameData dfl fl m hm1 hsize m 0 (by omega)
    simpa using h

/-- C8 witness: the S5 scenario — `file_length = 300`,
`data_frame_length = 128`: frames 0, 1, 2 are requested and the
concatenated 128 + 128 + 44 bytes are exactly 300. -/
theorem get_file_frame_loop_witness :
    uploadFrames (fun k => List.replicate (min 128 (300 - 128 * k)) 0) 128 300 =
        some (List.range' 0 3,
          framesData (fun k => List.replicate (min 128 (300 - 128 * k)) 0) 0 3)
    ∧ 3 = (300 + 128 - 1) / 128
    ∧ (framesData (fun k => List.replicate (min 128 (300 - 128 * k)) 0) 0 3).length = 300 :=
  get_file_frame_loop (fun k => List.replicate (min 128 (300 - 128 * k)) 0) 128 300 3
    (by decide) (by decide) (by decide) (fun k _ => by simp [Nat.mul_comm])

theorem crcByteRound_lt (p : Nat × Nat) (h : p.2 < 2 ^ 16) :
    (crcByteRound p).2 < 2 ^ 16 := by
  unfold crcByteRound
  split
  · exact Nat.xor_lt_two_pow (by omega) (by norm_num)
  · simpa using by omega

theorem crcByteRound_iter_lt :
    ∀ (k : Nat) (p : Nat × Nat), p.2 < 2 ^ 16 → (crcByteRound^[k] p).2 < 2 ^ 16
  | 0, _, h => h
  | k + 1, p, h => by
    rw [Function.iterate_succ_apply]
    exact crcByteRound_iter_lt k _ (crcByteRound_lt p h)

theorem crcTableEntry_lt (b : Nat) : crcTableEntry b < 2 ^ 16 :=
  crcByteRound_iter_lt 8 (b, 0) (by norm_num)

theorem computeCRCraw_lt (data : List Nat) : computeCRCraw data < 2 ^ 16 := by
  have aux : ∀ (l : List Nat) (crc : Nat), crc < 2 ^ 16 →
      l.foldl (fun crc a =>
        ((crc >>> 8) &&& 0xFF) ^^^ crcTableEntry ((crc ^^^ a) &&& 0xFF)) crc < 2 ^ 16 := by
    intro l
    induction l with
    | nil => intro crc h; exact h
    | cons a l ih =>
      intro crc _
      exact ih _ (Nat.xor_lt_two_pow
        (Nat.and_lt_two_pow _ (show (255 : Nat) < 2 ^ 16 by norm_num))
        (crcTableEntry_lt _))
  exact aux data 0xFFFF (by norm_num)

theorem swapBytes16_eq (x : Nat) (hx : x < 2 ^ 16) :
    swapBytes16 x = 256 * (x % 256) + x / 256 := by
  have h1 : (x <<< 8) &&& 0xFF00 = 2 ^ 8 * (x % 2 ^ 8) := by
    have h255 : (0xFF00 : Nat) = 2 ^ 8 * (2 ^ 8 - 1) := by norm_num
    rw [h255]
    apply Nat.eq_of_testBit_eq
    intro i
    simp only [Nat.testBit_and, Nat.testBit_shiftLeft, Nat.testBit_mul_pow_two,
      Nat.testBit_two_pow_sub_one, Nat.testBit_mod_two_pow]
    by_cases hi : 8 ≤ i
    · simp [hi, Bool.and_comm]
    · simp [hi]
  have h2 : (x >>> 8) &&& 0xFF = x / 2 ^ 8 := by
    have h255 : (0xFF : Nat) = 2 ^ 8 - 1 := by norm_num
    rw [h255, Nat.and_pow_two_sub_one_eq_mod, Nat.shiftRight_eq_div_pow]
    exact Nat.mod_eq_of_lt (Nat.div_lt_of_lt_mul (by norm_num; omega))
  have hb : x / 2 ^ 8 < 2 ^ 8 := Nat.div_lt_of_lt_mul (by norm_num; omega)
  rw [swapBytes16, h1, h2, ← Nat.mul_add_lt_is_or hb (x % 2 ^ 8)]
  norm_num

theorem swapBytes16_inj {x y : Nat} (hx : x < 2 ^ 16) (hy : y < 2 ^ 16)
    (h : swapBytes16 x = swapBytes16 y) : x = y := by
  rw [swapBytes16_eq x hx, swapBytes16_eq y hy] at h
  omega

/-- C6 counterexample: the empirical Modbus CRC-16 (polynomial 0xA001,
initial 0xFFFF) of the one-byte file `[0x00]` is 0x40BF.  When the inverter
reports `file_crc = 0x40BF`, the byte-swapped received CRC (0xBF40) differs
from that computed CRC-16 — so under the claim the operation should fail
with CrcMismatch — yet `get_file` accepts the file, because pymodbus
`computeCRC` returns the CRC-16 already byte-swapped and the two swaps
cancel. -/
theorem crc_swap_convention_counterexample :
    computeCRCraw [0] = 0x40BF
    ∧ swapBytes16 0x40BF ≠ computeCRCraw [0]
    ∧ getFileCrcAccept [0] 0x40BF = true :=
  ⟨by decide, by decide, by decide⟩

/-- C6 (amended): after assembly the received `file_crc` is byte-swapped and
compared with pymodbus `computeCRC`, which is the Modbus CRC-16 (polynomial
0xA001, initial 0xFFFF) with its two bytes swapped on return; for a 16-bit
received CRC the acceptance is therefore equivalent to the raw `file_crc`
being equal to the raw Modbus CRC-16 of the assembled bytes, and any
difference raises the CrcMismatch `ReadException`. -/
theorem get_file_crc_check (fileData : List Nat) (fileCrc : Nat)
    (hcrc : fileCrc < 2 ^ 16) :
    (getFileCrcAccept fileData fileCrc = true ↔ fileCrc = computeCRCraw fileData)
    ∧ computeCRC fileData = swapBytes16 (computeCRCraw fileData) := by
  refine ⟨?_, rfl⟩
  unfold getFileCrcAccept checkCRC computeCRC
  rw [beq_iff_eq]
  constructor
  · intro h
    exact (swapBytes16_inj (computeCRCraw_lt fileData) hcrc h).symm
  · intro h
    rw [h]

/-- C6 amended-claim witness: a file whose reported CRC equals the raw Modbus
CRC-16 of its bytes is accepted. -/
theorem get_file_crc_check_witness :
    (0x40BF : Nat) < 2 ^ 16
    ∧ ((getFileCrcAccept [0] 0x40BF = true ↔ (0x40BF : Nat) = computeCRCraw [0])
        ∧ computeCRC [0] = swapBytes16 (computeCRCraw [0])) :=
  ⟨by decide, get_file_crc_check [0] 0x40BF (by decide)⟩

end HuaweiSolar
